import Mathlib

/-!
Shallow embedding of the context-management code of the
`genai_chat_completion_wrapper` repository: the compression strategies from
`src/notes.md` (`truncateMessages`, `truncateByTokens`,
`smartContextManagement`) and the HTTP glue from `src/cli.js`
(the `POST /chat` handler and the CLI's `callChatEndpoint`).

External dependencies are modelled as explicit parameters:
the tiktoken encoder `enc.encode(content).length` becomes a token counter
`tc : String → Nat`; the network-bound summarizer and completion provider
become oracle functions returning `Except`.
-/

inductive Role
  | system
  | user
  | assistant
  deriving DecidableEq

structure Message where
  role : Role
  content : String
  deriving DecidableEq

/-- The predicate `m.role === "system"` used by `find` in all strategies. -/
def isSys (m : Message) : Bool := m.role == Role.system

/-- Modelled from the spec: `estimateTokens` is called by
`smartContextManagement` (notes.md line 374) but defined nowhere in the
repository; the spec's token counter returns a non-negative per-text
estimate, so the conversation total is the sum of the counter over each
message's content. -/
def estimateTokens (tc : String → Nat) (messages : List Message) : Nat :=
  (messages.map fun m => tc m.content).sum

/-- The initial `result` array of `truncateByTokens` (notes.md lines 344-349):
`[systemMsg]` when `messages.find(m => m.role === "system")` succeeds,
`[]` otherwise. -/
def sysListOf (messages : List Message) : List Message :=
  match messages.find? isSys with
  | some s => [s]
  | none => []

/-- The initial `totalTokens` of `truncateByTokens` (notes.md lines 344-349):
the token count of the first system message, or `0` when there is none. -/
def sysTokOf (tc : String → Nat) (messages : List Message) : Nat :=
  match messages.find? isSys with
  | some s => tc s.content
  | none => 0

/-- The `for (let i = messages.length - 1; i >= 0; i--)` loop of
`truncateByTokens` (notes.md lines 352-361), applied to the reversed
message list: system messages are skipped (`continue`), the loop `break`s
as soon as `totalTokens + tokens > maxTokens`, and every kept message is
`unshift`ed onto the front of `result`. -/
def truncLoop (tc : String → Nat) (maxTokens : Nat) :
    List Message → Nat → List Message → List Message
  | [], _, result => result
  | msg :: rest, totalTokens, result =>
    if isSys msg then
      truncLoop tc maxTokens rest totalTokens result
    else if totalTokens + tc msg.content > maxTokens then
      result
    else
      truncLoop tc maxTokens rest (totalTokens + tc msg.content) (msg :: result)

/-- `truncateByTokens` from notes.md lines 339-364 (Strategy 3, the spec's
Strategy B), with the tiktoken encoder abstracted as `tc`. -/
def truncateByTokens (tc : String → Nat) (messages : List Message)
    (maxTokens : Nat) : List Message :=
  truncLoop tc maxTokens messages.reverse (sysTokOf tc messages)
    (sysListOf messages)

/-- Stated from the claim's words (C4): walk the messages newest-to-oldest
(the input list is the reversed conversation), accumulate `approxTokens`,
and stop the moment adding the next older message would make the total
strictly exceed `maxTokens`; a message landing exactly at `maxTokens` is
kept. -/
def specWalkNewest (tc : String → Nat) (maxTokens : Nat) :
    List Message → Nat → List Message
  | [], _ => []
  | m :: rest, total =>
    if total + tc m.content > maxTokens then []
    else m :: specWalkNewest tc maxTokens rest (total + tc m.content)

/-- JavaScript index normalization for `Array.prototype.slice`: negative
indices count from the end, clamped to `[0, len]`. -/
def jsIndex (len : Nat) (i : Int) : Nat :=
  if i < 0 then ((len : Int) + i).toNat else min i.toNat len

/-- JavaScript `l.slice(start, stop)`. -/
def jsSlice (l : List α) (start stop : Int) : List α :=
  (l.take (jsIndex l.length stop)).drop (jsIndex l.length start)

/-- `truncateMessages` from notes.md lines 276-284 (Strategy 1, sliding
window): `messages.slice(-maxMessages)` prefixed by the first system
message when one exists. -/
def truncateMessages (messages : List Message) (maxMessages : Nat) :
    List Message :=
  let recentMessages := jsSlice messages (-(maxMessages : Int))
    (messages.length : Int)
  match messages.find? isSys with
  | some systemMessage => systemMessage :: recentMessages
  | none => recentMessages

/-- `smartContextManagement` from notes.md lines 372-398 (Strategy 4,
hybrid). The network-bound `summarizeOldMessages` (notes.md lines 296-312,
an `await client.chat.completions.create(...)` call) is passed as an
oracle; a rejected promise is `Except.error`. The JS code has no
`try`/`catch` around the call, so an error propagates to the caller. -/
def smartContextManagement (tc : String → Nat)
    (summarizeOldMessages : List Message → Except String Message)
    (messages : List Message) (maxRecent : Nat) (maxTokens : Nat) :
    Except String (List Message) :=
  if estimateTokens tc messages < maxTokens then Except.ok messages
  else
    let systemMsg := messages.find? isSys
    let recentMessages := jsSlice messages (-(maxRecent : Int))
      (messages.length : Int)
    let oldMessages := jsSlice messages
      (if systemMsg.isSome then 1 else 0) (-(maxRecent : Int))
    if oldMessages.length > 0 then
      match summarizeOldMessages oldMessages with
      | Except.error e => Except.error e
      | Except.ok summary =>
        Except.ok ((match systemMsg with
          | some s => [s]
          | none => []) ++ [summary] ++ recentMessages)
    else
      Except.ok ((match systemMsg with
        | some s => [s]
        | none => []) ++ recentMessages)

/-- The `messages` field of a `POST /chat` request body as the handler
distinguishes it: absent (`undefined`), present but not an array, or an
array of messages (`Array.isArray`). -/
inductive MessagesField
  | missing
  | notArray
  | array (msgs : List Message)

/-- The handler's observable response: status 400 with an error body,
status 200 with the first choice's reply content, or status 500. -/
inductive ChatResult
  | badRequest (error : String)
  | ok (reply : Option String)
  | serverError (error : String)

/-- `!Array.isArray(messages) || messages.length === 0` is the rejection
test of the handler; this is its complement. -/
def isNonEmptyArray : MessagesField → Bool
  | .array msgs => !(msgs.length == 0)
  | _ => false

/-- The `app.post("/chat")` handler of `src/cli.js` (server part, lines
110-148). The provider oracle returns the `completion.choices` list, each
choice reduced to its `message?.content`; a rejected call is
`Except.error`. An empty `choices` array makes `choices[0]` `undefined`,
so `choice.message?.content` throws and the `catch` returns 500. The
second component records whether the external provider was invoked. -/
def chatHandler
    (provider : List Message → Except String (List (Option String)))
    (mf : MessagesField) : ChatResult × Bool :=
  match mf with
  | .array msgs =>
    if msgs.length = 0 then
      (ChatResult.badRequest "messages array is required and must not be empty",
        false)
    else
      match provider msgs with
      | Except.error _ => (ChatResult.serverError "Something went wrong", true)
      | Except.ok choices =>
        match choices with
        | [] => (ChatResult.serverError "Something went wrong", true)
        | c :: _ => (ChatResult.ok c, true)
  | _ =>
    (ChatResult.badRequest "messages array is required and must not be empty",
      false)

/-- The parsed JSON body the CLI receives from the server: `data.reply`. -/
structure ChatApiResponse where
  reply : Option String
  deriving DecidableEq

/-- Outcome of the CLI's `fetch` call: resolved with an ok body, resolved
with a non-ok HTTP status, or rejected with a network error. -/
inductive FetchResp
  | ok (data : ChatApiResponse)
  | httpError (status : Nat) (body : String)
  | netError (msg : String)

/-- `data.reply || "(no reply)"`: JavaScript `||` treats both a missing
field and the empty string as falsy. -/
def orNoReply (r : Option String) : String :=
  match r with
  | some s => if s = "" then "(no reply)" else s
  | none => "(no reply)"

/-- `callChatEndpoint` from the CLI part of `src/cli.js` (lines 21-49),
with the module-level `messages` array passed as explicit state. The user
message is pushed BEFORE the fetch; on a non-ok status or a network error
the function throws with the user message still appended; only on success
is the assistant reply also appended. -/
def callChatEndpoint (msgs : List Message) (userInput : String)
    (resp : FetchResp) : List Message × Except String String :=
  let msgs1 := msgs ++ [⟨Role.user, userInput⟩]
  match resp with
  | .ok data =>
    let reply := orNoReply data.reply
    (msgs1 ++ [⟨Role.assistant, reply⟩], Except.ok reply)
  | .httpError status body =>
    (msgs1, Except.error ("HTTP " ++ toString status ++ ": " ++ body))
  | .netError m => (msgs1, Except.error m)

theorem truncLoop_char (tc : String → Nat) (maxT : Nat) :
    ∀ (l : List Message) (tot : Nat) (res : List Message),
      truncLoop tc maxT l tot res =
        (specWalkNewest tc maxT (l.filter fun m => !isSys m) tot).reverse ++ res
  | [], _, _ => by simp [truncLoop, specWalkNewest]
  | m :: rest, tot, res => by
    by_cases hm : isSys m
    · simp only [truncLoop, hm, if_true, List.filter_cons, Bool.not_eq_true',
        hm]
      simpa using truncLoop_char tc maxT rest tot res
    · simp only [truncLoop, hm, if_false, List.filter_cons,
        Bool.not_eq_true']
      by_cases hb : tot + tc m.content > maxT
      · simp [hm, specWalkNewest, hb]
      · simp only [hm, hb, if_false]
        rw [truncLoop_char tc maxT rest (tot + tc m.content) (m :: res)]
        simp [specWalkNewest, hb]

theorem truncateByTokens_char (tc : String → Nat) (messages : List Message)
    (maxT : Nat) :
    truncateByTokens tc messages maxT =
      (specWalkNewest tc maxT (messages.reverse.filter fun m => !isSys m)
        (sysTokOf tc messages)).reverse ++ sysListOf messages := by
  unfold truncateByTokens
  exact truncLoop_char tc maxT messages.reverse (sysTokOf tc messages)
    (sysListOf messages)

theorem estimateTokens_append (tc : String → Nat) (l l' : List Message) :
    estimateTokens tc (l ++ l') = estimateTokens tc l + estimateTokens tc l' := by
  simp [estimateTokens]

theorem estimateTokens_reverse (tc : String → Nat) (l : List Message) :
    estimateTokens tc l.reverse = estimateTokens tc l := by
  simp [estimateTokens, List.map_reverse, List.sum_reverse]

theorem specWalkNewest_sum (tc : String → Nat) (maxT : Nat) :
    ∀ (l : List Message) (tot : Nat),
      specWalkNewest tc maxT l tot = [] ∨
        tot + estimateTokens tc (specWalkNewest tc maxT l tot) ≤ maxT
  | [], _ => Or.inl rfl
  | m :: rest, tot => by
    by_cases hb : tot + tc m.content > maxT
    · exact Or.inl (by simp [specWalkNewest, hb])
    · right
      simp only [specWalkNewest, hb, if_false]
      rcases specWalkNewest_sum tc maxT rest (tot + tc m.content) with h | h
      · simp [h, estimateTokens]
        omega
      · simp only [estimateTokens, List.map_cons, List.sum_cons]
        simp only [estimateTokens] at h
        omega

theorem specWalkNewest_fix (tc : String → Nat) (maxT : Nat) :
    ∀ (l : List Message) (tot : Nat),
      tot + estimateTokens tc l ≤ maxT → specWalkNewest tc maxT l tot = l
  | [], _, _ => rfl
  | m :: rest, tot, h => by
    simp only [estimateTokens, List.map_cons, List.sum_cons] at h
    have hb : ¬ tot + tc m.content > maxT := by omega
    simp only [specWalkNewest, hb, if_false]
    rw [specWalkNewest_fix tc maxT rest (tot + tc m.content)
      (by simp only [estimateTokens]; omega)]

theorem specWalkNewest_subset (tc : String → Nat) (maxT : Nat) :
    ∀ (l : List Message) (tot : Nat) (x : Message),
      x ∈ specWalkNewest tc maxT l tot → x ∈ l
  | [], _, _, h => by simp [specWalkNewest] at h
  | m :: rest, tot, x, h => by
    by_cases hb : tot + tc m.content > maxT
    · simp [specWalkNewest, hb] at h
    · simp only [specWalkNewest, hb, if_false, List.mem_cons] at h
      rcases h with h | h
      · simp [h]
      · exact List.mem_cons_of_mem m
          (specWalkNewest_subset tc maxT rest (tot + tc m.content) x h)

theorem find?_append_of_none {α : Type} (p : α → Bool) :
    ∀ (l l' : List α), (∀ x ∈ l, p x = false) →
      List.find? p (l ++ l') = List.find? p l'
  | [], _, _ => rfl
  | a :: l, l', h => by
    have ha : p a = false := h a (List.mem_cons_self a l)
    simp only [List.cons_append, List.find?_cons, ha]
    exact find?_append_of_none p l l' fun x hx =>
      h x (List.mem_cons_of_mem a hx)

theorem sysListOf_mem (messages : List Message) (x : Message)
    (hx : x ∈ sysListOf messages) : isSys x = true := by
  unfold sysListOf at hx
  cases hfind : messages.find? isSys with
  | none => rw [hfind] at hx; simp at hx
  | some s =>
    rw [hfind] at hx
    simp at hx
    rw [hx]
    exact List.find?_some hfind

theorem truncateByTokens_of_none (tc : String → Nat) (messages : List Message)
    (maxT : Nat) (hfind : messages.find? isSys = none) :
    truncateByTokens tc messages maxT =
      (specWalkNewest tc maxT (messages.reverse.filter fun m => !isSys m)
        0).reverse := by
  rw [truncateByTokens_char]
  simp [sysListOf, sysTokOf, hfind]

theorem truncateByTokens_of_some (tc : String → Nat) (messages : List Message)
    (maxT : Nat) (s : Message) (hfind : messages.find? isSys = some s) :
    truncateByTokens tc messages maxT =
      (specWalkNewest tc maxT (messages.reverse.filter fun m => !isSys m)
        (tc s.content)).reverse ++ [s] := by
  rw [truncateByTokens_char]
  simp [sysListOf, sysTokOf, hfind]

theorem walk_filter_mem_not_sys (tc : String → Nat) (maxT : Nat)
    (l : List Message) (tot : Nat) (x : Message)
    (hx : x ∈ specWalkNewest tc maxT (l.filter fun m => !isSys m) tot) :
    isSys x = false := by
  have hxF := specWalkNewest_subset tc maxT _ tot x hx
  simpa [Bool.not_eq_true'] using (List.mem_filter.mp hxF).2

theorem truncateByTokens_fix_noSys (tc : String → Nat) (l : List Message)
    (maxT : Nat) (hns : ∀ x ∈ l, isSys x = false)
    (hsum : estimateTokens tc l ≤ maxT) :
    truncateByTokens tc l maxT = l := by
  have hfind : l.find? isSys = none :=
    List.find?_eq_none.mpr fun x hx => by simp [hns x hx]
  rw [truncateByTokens_of_none tc l maxT hfind]
  have hfilt : l.reverse.filter (fun m => !isSys m) = l.reverse :=
    List.filter_eq_self.mpr fun x hx =>
      by simp [hns x (List.mem_reverse.mp hx)]
  rw [hfilt, specWalkNewest_fix tc maxT l.reverse 0
    (by rw [estimateTokens_reverse]; omega), List.reverse_reverse]

theorem truncateByTokens_singleton_sys (tc : String → Nat) (s : Message)
    (maxT : Nat) (hs : isSys s = true) :
    truncateByTokens tc [s] maxT = [s] := by
  have hfind : List.find? isSys [s] = some s := by
    simp [List.find?, hs]
  rw [truncateByTokens_of_some tc [s] maxT s hfind]
  simp [hs, specWalkNewest]

theorem truncateByTokens_fix_sysLast (tc : String → Nat) (g : List Message)
    (s : Message) (maxT : Nat) (hns : ∀ x ∈ g, isSys x = false)
    (hs : isSys s = true)
    (hsum : tc s.content + estimateTokens tc g ≤ maxT) :
    truncateByTokens tc (g ++ [s]) maxT = g ++ [s] := by
  have hfind : (g ++ [s]).find? isSys = some s := by
    rw [find?_append_of_none isSys g [s] fun x hx => hns x hx]
    simp [List.find?, hs]
  rw [truncateByTokens_of_some tc (g ++ [s]) maxT s hfind]
  have hrev : (g ++ [s]).reverse = s :: g.reverse := by simp
  rw [hrev]
  have hfilt : (s :: g.reverse).filter (fun m => !isSys m) = g.reverse := by
    rw [List.filter_cons]
    simp only [hs, Bool.not_true, if_false]
    exact List.filter_eq_self.mpr fun x hx =>
      by simp [hns x (List.mem_reverse.mp hx)]
  rw [hfilt, specWalkNewest_fix tc maxT g.reverse (tc s.content)
    (by rw [estimateTokens_reverse]; omega), List.reverse_reverse]

/-- C7: `reduce` under a Budget — Strategy B, `truncateByTokens` — is
idempotent on its own output when the same budget is reused: reducing an
already-reduced conversation with the same token counter and the same
`maxTokens` changes nothing. -/
theorem claim7_reduce_idempotent (tc : String → Nat) (msgs : List Message)
    (maxT : Nat) :
    truncateByTokens tc (truncateByTokens tc msgs maxT) maxT
      = truncateByTokens tc msgs maxT := by
  cases hfind : msgs.find? isSys with
  | none =>
    rw [truncateByTokens_of_none tc msgs maxT hfind]
    have hwns : ∀ x ∈ (specWalkNewest tc maxT
        (msgs.reverse.filter fun m => !isSys m) 0).reverse, isSys x = false :=
      fun x hx => walk_filter_mem_not_sys tc maxT msgs.reverse 0 x
        (List.mem_reverse.mp hx)
    apply truncateByTokens_fix_noSys tc _ maxT hwns
    rw [estimateTokens_reverse]
    rcases specWalkNewest_sum tc maxT
        (msgs.reverse.filter fun m => !isSys m) 0 with h | h
    · rw [h]; exact Nat.zero_le maxT
    · omega
  | some s =>
    have hs : isSys s = true := List.find?_some hfind
    rw [truncateByTokens_of_some tc msgs maxT s hfind]
    rcases specWalkNewest_sum tc maxT
        (msgs.reverse.filter fun m => !isSys m) (tc s.content) with h | h
    · rw [h]
      simpa using truncateByTokens_singleton_sys tc s maxT hs
    · apply truncateByTokens_fix_sysLast tc _ s maxT
        (fun x hx => walk_filter_mem_not_sys tc maxT msgs.reverse
          (tc s.content) x (List.mem_reverse.mp hx)) hs
      rw [estimateTokens_reverse]
      omega

/-- C10: the output of `truncateByTokens` contains at most one system-role
message — its system messages are exactly the (at most one) first system
message found by `messages.find(m => m.role === "system")`; every other
system message is skipped by the `continue` in the newest-to-oldest walk
no matter how much budget remains. -/
theorem claim10_at_most_one_system (tc : String → Nat) (msgs : List Message)
    (maxT : Nat) :
    (truncateByTokens tc msgs maxT).filter isSys = sysListOf msgs
      ∧ ((truncateByTokens tc msgs maxT).filter isSys).length ≤ 1 := by
  have hmain : (truncateByTokens tc msgs maxT).filter isSys = sysListOf msgs := by
    rw [truncateByTokens_char, List.filter_append]
    have hw : ((specWalkNewest tc maxT
        (msgs.reverse.filter fun m => !isSys m)
        (sysTokOf tc msgs)).reverse).filter isSys = [] :=
      List.filter_eq_nil_iff.mpr fun x hx => by
        simp [walk_filter_mem_not_sys tc maxT msgs.reverse _ x
          (List.mem_reverse.mp hx)]
    rw [hw, List.nil_append]
    unfold sysListOf
    cases hfind : msgs.find? isSys with
    | none => rfl
    | some s =>
      have hs : isSys s = true := List.find?_some hfind
      simp [hs]
  refine ⟨hmain, ?_⟩
  rw [hmain]
  unfold sysListOf
  cases msgs.find? isSys <;> simp

/-- C1 (amended): the total `approxTokens` of `truncateByTokens`' result is
at most `maxTokens`, OR the result is exactly the singleton FIRST SYSTEM
message (not the newest message): the code keeps an over-budget system
message unconditionally and has no `BudgetExceededByLatestMessage`
warning. -/
theorem claim1_amended_budget_or_singleton_system (tc : String → Nat)
    (msgs : List Message) (maxT : Nat) :
    estimateTokens tc (truncateByTokens tc msgs maxT) ≤ maxT
      ∨ truncateByTokens tc msgs maxT = sysListOf msgs := by
  cases hfind : msgs.find? isSys with
  | none =>
    left
    rw [truncateByTokens_of_none tc msgs maxT hfind, estimateTokens_reverse]
    rcases specWalkNewest_sum tc maxT
        (msgs.reverse.filter fun m => !isSys m) 0 with h | h
    · rw [h]; exact Nat.zero_le maxT
    · omega
  | some s =>
    rw [truncateByTokens_of_some tc msgs maxT s hfind]
    rcases specWalkNewest_sum tc maxT
        (msgs.reverse.filter fun m => !isSys m) (tc s.content) with h | h
    · right
      rw [h]
      simp [sysListOf, hfind]
    · left
      rw [estimateTokens_append, estimateTokens_reverse]
      simp only [estimateTokens, List.map_cons, List.map_nil, List.sum_cons,
        List.sum_nil] at h ⊢
      omega

/-- C1 counterexample: with the character-count token counter, the
conversation `[system "aaaaaaaaaa" (10 tokens), user "u" (1 token)]` and
`maxTokens = 5`, the result totals 10 > 5 tokens yet is NOT the singleton
newest message (`user "u"`): it is the over-budget system message. So the
claimed disjunction is false at this input. -/
theorem claim1_counterexample :
    ¬ (estimateTokens String.length (truncateByTokens String.length
          [⟨Role.system, "aaaaaaaaaa"⟩, ⟨Role.user, "u"⟩] 5) ≤ 5
        ∨ truncateByTokens String.length
            [⟨Role.system, "aaaaaaaaaa"⟩, ⟨Role.user, "u"⟩] 5
          = [⟨Role.user, "u"⟩]) := by decide

/-- C4: Strategy B walks the messages newest to oldest accumulating
`approxTokens` and stops the moment the next older message would push the
total strictly over `maxTokens` (an exact tie is kept): on system-free
conversations `truncateByTokens` equals the walk stated from the claim's
words, and on 50 messages of 100 tokens each it keeps exactly the newest 4
with `maxTokens = 450`, and still exactly 4 at the exact tie
`maxTokens = 400`. -/
theorem claim4_newest_walk_and_scenario :
    (∀ (tc : String → Nat) (msgs : List Message) (maxT : Nat),
      (∀ m ∈ msgs, isSys m = false) →
        truncateByTokens tc msgs maxT
          = (specWalkNewest tc maxT msgs.reverse 0).reverse)
    ∧ truncateByTokens (fun _ => 100)
        ((List.range 50).map fun i => ⟨Role.user, toString i⟩) 450
        = ((List.range 50).map fun i => (⟨Role.user, toString i⟩ : Message)).drop 46
    ∧ truncateByTokens (fun _ => 100)
        ((List.range 50).map fun i => ⟨Role.user, toString i⟩) 400
        = ((List.range 50).map fun i => (⟨Role.user, toString i⟩ : Message)).drop 46 := by
  refine ⟨?_, by decide, by decide⟩
  intro tc msgs maxT hns
  have hfind : msgs.find? isSys = none :=
    List.find?_eq_none.mpr fun x hx => by simp [hns x hx]
  rw [truncateByTokens_of_none tc msgs maxT hfind]
  rw [List.filter_eq_self.mpr fun x hx =>
    by simp [hns x (List.mem_reverse.mp hx)]]

/-- C4 witness: the general walk equation of `claim4_newest_walk_and_scenario`
instantiated at a concrete system-free two-message conversation. -/
theorem claim4_witness :
    (∀ m ∈ ([⟨Role.user, "a"⟩, ⟨Role.user, "bb"⟩] : List Message),
      isSys m = false)
    ∧ truncateByTokens String.length
        [⟨Role.user, "a"⟩, ⟨Role.user, "bb"⟩] 2
      = (specWalkNewest String.length 2
          ([⟨Role.user, "a"⟩, ⟨Role.user, "bb"⟩] : List Message).reverse
          0).reverse :=
  ⟨by decide, claim4_newest_walk_and_scenario.1 String.length
    [⟨Role.user, "a"⟩, ⟨Role.user, "bb"⟩] 2 (by decide)⟩

/-- C2 counterexample: a non-empty conversation whose single (newest)
message alone counts 5000 tokens, with `maxTokens = 1000`, reduces to the
EMPTY list — not to the singleton newest message, and no
`BudgetExceededByLatestMessage` warning exists anywhere in the code. -/
theorem claim2_counterexample :
    truncateByTokens (fun _ => 5000) [⟨Role.user, "big"⟩] 1000 = []
    ∧ ([⟨Role.user, "big"⟩] : List Message) ≠ [] := by decide

/-- C2 (amended): `truncateByTokens` never throws, but the newest (last,
non-system) message is retained IFF the first system message's tokens plus
its own tokens fit within `maxTokens`; when they do not, the result is
just the system-message list (empty when there is no system message),
dropping the newest message with no warning. -/
theorem claim2_amended_newest_kept_iff_fits (tc : String → Nat)
    (msgs : List Message) (maxT : Nat) (m : Message)
    (hlast : msgs.getLast? = some m) (hns : isSys m = false) :
    (sysTokOf tc msgs + tc m.content ≤ maxT
        ↔ m ∈ truncateByTokens tc msgs maxT)
    ∧ (truncateByTokens tc msgs maxT = sysListOf msgs
        ∨ sysTokOf tc msgs + tc m.content ≤ maxT) := by
  rw [List.getLast?_eq_head?_reverse] at hlast
  obtain ⟨t, hrev⟩ : ∃ t, msgs.reverse = m :: t := by
    cases hr : msgs.reverse with
    | nil => rw [hr] at hlast; simp at hlast
    | cons a t =>
      rw [hr] at hlast
      simp at hlast
      exact ⟨t, by rw [hlast]⟩
  have hR : truncateByTokens tc msgs maxT
      = truncLoop tc maxT (m :: t) (sysTokOf tc msgs) (sysListOf msgs) := by
    rw [truncateByTokens, hrev]
  by_cases hfit : sysTokOf tc msgs + tc m.content ≤ maxT
  · have hmem : m ∈ truncateByTokens tc msgs maxT := by
      rw [hR]
      unfold truncLoop
      rw [if_neg (by simp [hns]), if_neg (by omega), truncLoop_char]
      exact List.mem_append_right _ (List.mem_cons_self m _)
    exact ⟨⟨fun _ => hmem, fun _ => hfit⟩, Or.inr hfit⟩
  · have hgt : sysTokOf tc msgs + tc m.content > maxT := by omega
    have hres : truncateByTokens tc msgs maxT = sysListOf msgs := by
      rw [hR]
      unfold truncLoop
      rw [if_neg (by simp [hns]), if_pos hgt]
    refine ⟨⟨fun hf => absurd hf hfit, fun hm => ?_⟩, Or.inl hres⟩
    exact absurd (sysListOf_mem msgs m (hres ▸ hm)) (by simp [hns])

/-- C2 witness: the amended iff instantiated where the newest message fits
(system "ss" = 2 tokens, user "aaa" = 3 tokens, budget 10). -/
theorem claim2_witness :
    ([⟨Role.system, "ss"⟩, ⟨Role.user, "aaa"⟩] : List Message).getLast?
        = some ⟨Role.user, "aaa"⟩
    ∧ isSys ⟨Role.user, "aaa"⟩ = false
    ∧ ((sysTokOf String.length [⟨Role.system, "ss"⟩, ⟨Role.user, "aaa"⟩]
          + String.length (Message.content ⟨Role.user, "aaa"⟩) ≤ 10
        ↔ (⟨Role.user, "aaa"⟩ : Message) ∈ truncateByTokens String.length
            [⟨Role.system, "ss"⟩, ⟨Role.user, "aaa"⟩] 10)
      ∧ (truncateByTokens String.length
            [⟨Role.system, "ss"⟩, ⟨Role.user, "aaa"⟩] 10
          = sysListOf [⟨Role.system, "ss"⟩, ⟨Role.user, "aaa"⟩]
        ∨ sysTokOf String.length [⟨Role.system, "ss"⟩, ⟨Role.user, "aaa"⟩]
            + String.length (Message.content ⟨Role.user, "aaa"⟩) ≤ 10)) :=
  ⟨by decide, by decide,
    claim2_amended_newest_kept_iff_fits String.length
      [⟨Role.system, "ss"⟩, ⟨Role.user, "aaa"⟩] 10 ⟨Role.user, "aaa"⟩
      (by decide) (by decide)⟩

/-- C3 counterexample: starting from an empty conversation, a failed
(HTTP 500) completion call leaves the CLI's message list holding the
appended user message — not the pre-turn state. -/
theorem claim3_counterexample :
    (callChatEndpoint [] "hi" (FetchResp.httpError 500 "oops")).1
      = [⟨Role.user, "hi"⟩]
    ∧ ([⟨Role.user, "hi"⟩] : List Message) ≠ []
    ∧ (callChatEndpoint [] "hi" (FetchResp.httpError 500 "oops")).2
      = Except.error "HTTP 500: oops" := by
  refine ⟨rfl, by decide, rfl⟩

/-- C3 (amended): the user message is pushed before the fetch, so every
error path (non-ok HTTP status or network error) leaves the conversation
with exactly the user message appended and no assistant reply; only on
success are both the user message and the assistant reply appended. -/
theorem claim3_amended_partial_mutation_on_error (msgs : List Message)
    (input : String) (status : Nat) (body e : String)
    (d : ChatApiResponse) :
    (callChatEndpoint msgs input (FetchResp.httpError status body)).1
      = msgs ++ [⟨Role.user, input⟩]
    ∧ (callChatEndpoint msgs input (FetchResp.netError e)).1
      = msgs ++ [⟨Role.user, input⟩]
    ∧ (callChatEndpoint msgs input (FetchResp.ok d)).1
      = msgs ++ [⟨Role.user, input⟩, ⟨Role.assistant, orNoReply d.reply⟩] := by
  refine ⟨rfl, rfl, ?_⟩
  simp [callChatEndpoint]

/-- C5 counterexample: over-budget conversation (12 tokens, budget 10) with
a non-empty old segment and a failing summarizer: `smartContextManagement`
surfaces the summarizer's error to its caller — there is no fallback to
Strategy B and no successful result. -/
theorem claim5_counterexample :
    smartContextManagement String.length (fun _ => Except.error "provider down")
      [⟨Role.user, "aaaa"⟩, ⟨Role.user, "bbbb"⟩, ⟨Role.user, "cccc"⟩] 1 10
      = Except.error "provider down"
    ∧ ¬ ∃ r, smartContextManagement String.length
        (fun _ => Except.error "provider down")
        [⟨Role.user, "aaaa"⟩, ⟨Role.user, "bbbb"⟩, ⟨Role.user, "cccc"⟩] 1 10
        = Except.ok r := by
  refine ⟨rfl, ?_⟩
  rintro ⟨r, h⟩
  exact Except.noConfusion h

/-- C5 (amended): whenever the conversation is at or over budget and the
old (pre-recent-window) segment is non-empty, a summarizer failure is
propagated unchanged to the caller of `smartContextManagement`: the JS code
wraps `summarizeOldMessages` in no `try`/`catch` and has no truncation
fallback. -/
theorem claim5_amended_summarize_error_propagates (tc : String → Nat)
    (msgs : List Message) (maxRecent maxT : Nat) (e : String)
    (hover : ¬ estimateTokens tc msgs < maxT)
    (hold : 0 < (jsSlice msgs
        (if (msgs.find? isSys).isSome then 1 else 0)
        (-(maxRecent : Int))).length) :
    smartContextManagement tc (fun _ => Except.error e) msgs maxRecent maxT
      = Except.error e := by
  simp only [smartContextManagement]
  rw [if_neg hover, if_pos hold]

/-- C5 witness: the propagation theorem instantiated at the concrete
over-budget three-message conversation. -/
theorem claim5_witness :
    (¬ estimateTokens String.length
        [⟨Role.user, "aaaa"⟩, ⟨Role.user, "bbbb"⟩, ⟨Role.user, "cccc"⟩] < 10)
    ∧ 0 < (jsSlice
        ([⟨Role.user, "aaaa"⟩, ⟨Role.user, "bbbb"⟩, ⟨Role.user, "cccc"⟩] : List Message)
        (if (([⟨Role.user, "aaaa"⟩, ⟨Role.user, "bbbb"⟩, ⟨Role.user, "cccc"⟩] : List Message).find? isSys).isSome then 1 else 0)
        (-(1 : Int))).length
    ∧ smartContextManagement String.length (fun _ => Except.error "down")
        [⟨Role.user, "aaaa"⟩, ⟨Role.user, "bbbb"⟩, ⟨Role.user, "cccc"⟩] 1 10
      = Except.error "down" :=
  ⟨by decide, by decide,
    claim5_amended_summarize_error_propagates String.length
      [⟨Role.user, "aaaa"⟩, ⟨Role.user, "bbbb"⟩, ⟨Role.user, "cccc"⟩] 1 10
      "down" (by decide) (by decide)⟩

/-- C6: evaluating the code at the failing inputs: `truncateByTokens`
returns the pinned system message as the LAST element (kept messages are
unshifted in front of it), and `truncateMessages` DUPLICATES the system
message whenever it lies inside the recent window — contradicting
"always first, exactly once". -/
theorem claim6_system_misplaced_and_duplicated :
    truncateByTokens String.length
      [⟨Role.system, "ss"⟩, ⟨Role.user, "u"⟩] 100
      = [⟨Role.user, "u"⟩, ⟨Role.system, "ss"⟩]
    ∧ truncateMessages [⟨Role.system, "s"⟩, ⟨Role.user, "u"⟩] 20
      = [⟨Role.system, "s"⟩, ⟨Role.system, "s"⟩, ⟨Role.user, "u"⟩] := by
  decide

/-- C8 counterexample: identical conversation and budget, two runs whose
external summarization provider answers differently: the results of
`smartContextManagement` differ, so the function is not deterministic in
(conversation, budget) alone — its output embeds the network-bound
summarizer's reply. -/
theorem claim8_counterexample :
    smartContextManagement String.length
        (fun _ => Except.ok ⟨Role.system, "summary A"⟩)
        [⟨Role.user, "aaaa"⟩, ⟨Role.user, "bbbb"⟩, ⟨Role.user, "cccc"⟩] 1 10
      ≠ smartContextManagement String.length
        (fun _ => Except.ok ⟨Role.system, "summary B"⟩)
        [⟨Role.user, "aaaa"⟩, ⟨Role.user, "bbbb"⟩, ⟨Role.user, "cccc"⟩] 1 10 := by
  intro h
  have h1 : smartContextManagement String.length
      (fun _ => Except.ok ⟨Role.system, "summary A"⟩)
      [⟨Role.user, "aaaa"⟩, ⟨Role.user, "bbbb"⟩, ⟨Role.user, "cccc"⟩] 1 10
      = Except.ok [⟨Role.system, "summary A"⟩, ⟨Role.user, "cccc"⟩] := rfl
  have h2 : smartContextManagement String.length
      (fun _ => Except.ok ⟨Role.system, "summary B"⟩)
      [⟨Role.user, "aaaa"⟩, ⟨Role.user, "bbbb"⟩, ⟨Role.user, "cccc"⟩] 1 10
      = Except.ok [⟨Role.system, "summary B"⟩, ⟨Role.user, "cccc"⟩] := rfl
  rw [h1, h2] at h
  injection h with hl
  exact absurd hl (by decide)

/-- C8 (amended): `smartContextManagement` performs no provider call and is
independent of the summarizer exactly when the conversation is strictly
under budget; two runs with arbitrary (even failing) summarizers then
return the identical result. Over budget its output depends on the
external provider (see the counterexample), so `reduce` as implemented by
the hybrid strategy is not a pure function of (conversation, budget). -/
theorem claim8_amended_deterministic_under_budget (tc : String → Nat)
    (s1 s2 : List Message → Except String Message) (msgs : List Message)
    (maxRecent maxT : Nat) (h : estimateTokens tc msgs < maxT) :
    smartContextManagement tc s1 msgs maxRecent maxT
      = smartContextManagement tc s2 msgs maxRecent maxT := by
  simp only [smartContextManagement]
  rw [if_pos h, if_pos h]

/-- C8 witness: the under-budget independence applied with one succeeding
and one failing summarizer on a 2-token conversation with budget 100. -/
theorem claim8_witness :
    estimateTokens String.length [⟨Role.user, "hi"⟩] < 100
    ∧ smartContextManagement String.length
        (fun _ => Except.ok ⟨Role.system, "A"⟩) [⟨Role.user, "hi"⟩] 1 100
      = smartContextManagement String.length
        (fun _ => Except.error "down") [⟨Role.user, "hi"⟩] 1 100 :=
  ⟨by decide,
    claim8_amended_deterministic_under_budget String.length
      (fun _ => Except.ok ⟨Role.system, "A"⟩) (fun _ => Except.error "down")
      [⟨Role.user, "hi"⟩] 1 100 (by decide)⟩

/-- C9: the `POST /chat` handler answers 400 with error
"messages array is required and must not be empty" exactly when the body's
`messages` field is not a non-empty array, and the external completion
provider is invoked exactly when the field IS a non-empty array — so on
the 400 path the handler returns before calling the provider. -/
theorem claim9_handler_validation
    (provider : List Message → Except String (List (Option String)))
    (mf : MessagesField) :
    ((chatHandler provider mf).1
        = ChatResult.badRequest "messages array is required and must not be empty"
      ↔ isNonEmptyArray mf = false)
    ∧ (chatHandler provider mf).2 = isNonEmptyArray mf := by
  cases mf with
  | missing => simp [chatHandler, isNonEmptyArray]
  | notArray => simp [chatHandler, isNonEmptyArray]
  | array msgs =>
    cases msgs with
    | nil => simp [chatHandler, isNonEmptyArray]
    | cons a l =>
      simp only [chatHandler, isNonEmptyArray, List.length_cons]
      rw [if_neg (by simp)]
      cases hp : provider (a :: l) with
      | error err => simp
      | ok choices =>
        cases choices with
        | nil => simp
        | cons c cs => simp
